import Mathlib

/-!
Verification of the voice-journal entry pipeline.

This file gives a shallow embedding of the core services of the
voice-life-journal repository (entry store, transcription client,
analysis client, statistics aggregation, export rendering) and proves
properties of them.

Modelling conventions:
* Python strings are Lean `String`s (a `String` in this Lean version is a
  structure holding a `List Char`, so character-level reasoning is direct).
* Timestamps (`created_at`) are abstract instants, integers counting
  minutes since an epoch; calendar rendering (`strftime`) is abstracted to
  functions of the instant that preserve day-equality structure.
* Database state is explicit: a `DB` value holds the stored rows, the next
  fresh id (standing in for uuid generation) and the current clock.
* External HTTP services are oracles passed as function arguments; each
  embedded client returns its result together with the number of network
  calls it made, so "no network call" is a provable statement.
* Python floats are modelled as exact rationals; `round(x, 1)` is modelled
  by round-half-to-even at one decimal place, matching Python rounding.
-/

set_option maxRecDepth 4000

namespace VoiceJournal

/-- Join a list of strings with a separator (model of `str.join` /
`",".join(...)` and of writing fields separated by commas). -/
def sepJoin (sep : String) : List String → String
  | [] => ""
  | [x] => x
  | x :: y :: xs => x ++ sep ++ sepJoin sep (y :: xs)

/-- Drop leading and trailing whitespace from a character list. -/
def stripChars (l : List Char) : List Char :=
  ((l.dropWhile Char.isWhitespace).reverse.dropWhile Char.isWhitespace).reverse

/-- Model of Python `str.strip()` with no arguments: remove leading and
trailing whitespace. -/
def pyStrip (s : String) : String := ⟨stripChars s.data⟩

/-- Accumulating scanner behind `pyWords`: split a character list at
whitespace runs, discarding empty pieces. -/
def splitWsAux : List Char → List Char → List String
  | [], acc => if acc.isEmpty then [] else [⟨acc.reverse⟩]
  | c :: cs, acc =>
      if c.isWhitespace then
        if acc.isEmpty then splitWsAux cs []
        else (⟨acc.reverse⟩ : String) :: splitWsAux cs []
      else splitWsAux cs (c :: acc)

/-- Whitespace-delimited word list of a string: the model of Python
`text.split()` (splitting at whitespace runs and discarding empty pieces). -/
def pyWords (t : String) : List String := splitWsAux t.data []

/-- Model of Python `str.lower()` (character-wise lowering). -/
def pyToLower (s : String) : String := ⟨s.data.map Char.toLower⟩

/-- Digit accumulator behind `pyToInt?`. -/
def parseDigits : List Char → Nat → Option Nat
  | [], acc => some acc
  | c :: cs, acc =>
      if c.isDigit then parseDigits cs (acc * 10 + (c.toNat - '0'.toNat))
      else Option.none

/-- Model of parsing a decimal integer literal string (the lax coercion
of a string to `int`): an optional sign followed by at least one digit. -/
def pyToInt? (s : String) : Option Int :=
  match s.data with
  | [] => Option.none
  | '-' :: cs =>
      if cs.isEmpty then Option.none
      else (parseDigits cs 0).map (fun n => -(n : Int))
  | '+' :: cs =>
      if cs.isEmpty then Option.none
      else (parseDigits cs 0).map (fun n => (n : Int))
  | cs => (parseDigits cs 0).map (fun n => (n : Int))

/-- Word count, the model of `len(text.split())` in the analysis gate. -/
def wordCount (t : String) : Nat := (pyWords t).length

/-- Floor of a rational number, computed from numerator and denominator. -/
def ratFloor (q : ℚ) : ℤ := q.num.fdiv (q.den : ℤ)

/-- Round a rational to the nearest integer, halves to even: the rounding
mode of Python `round`. -/
def roundHalfEven (q : ℚ) : ℤ :=
  let f := ratFloor q
  let r := q - (f : ℚ)
  if r < 1/2 then f
  else if 1/2 < r then f + 1
  else if f % 2 = 0 then f else f + 1

/-- Model of Python `round(x, 1)`: round to one decimal place. -/
def round1 (q : ℚ) : ℚ := (roundHalfEven (10 * q) : ℚ) / 10

/-! ## Entry data model (src/models/entry.py)

The `sentiment` column is an opaque JSON payload never inspected by the
core; it is modelled as an optional opaque token. -/

/-- A persisted journal entry row (table `entries`). `id` stands in for the
generated uuid, `created_at`/`updated_at` are instants set by the store. -/
structure Entry where
  id : Nat
  user_id : Int
  transcription : String
  voice_file_id : Option String
  voice_duration_seconds : Option Int
  sentiment : Option Unit
  summary : Option String
  mood_score : Option Int
  tags : Option (List String)
  created_at : Int
  updated_at : Int
  deriving DecidableEq, Repr

/-- Database state: stored rows in insertion order, the next fresh id
(uuid generation), and the current clock instant. -/
structure DB where
  entries : List Entry
  nextId : Nat
  now : Int
  deriving DecidableEq, Repr

/-- Well-formedness of a database state: every stored row's id was
allocated below the next fresh id (ids are unique because they are
allocated in increasing order). -/
def DB.WF (db : DB) : Prop := ∀ e ∈ db.entries, e.id < db.nextId

namespace EntryService

/-- Model of `EntryService.create_entry`: validates `user_id` and the
transcription, strips the transcription, and inserts a row with
server-assigned id and timestamps.  Returns the persisted entry and the
new database state, or the `ValueError` message. -/
def create_entry (db : DB) (user_id : Int) (transcription : String)
    (voice_file_id : Option String) (voice_duration_seconds : Option Int)
    (sentiment : Option Unit) (summary : Option String)
    (mood_score : Option Int) (tags : Option (List String)) :
    Except String (Entry × DB) :=
  if user_id ≤ 0 then .error "user_id must be positive"
  else if transcription = "" ∨ pyStrip transcription = "" then
    .error "transcription cannot be empty"
  else
    let e : Entry :=
      { id := db.nextId
        user_id := user_id
        transcription := pyStrip transcription
        voice_file_id := voice_file_id
        voice_duration_seconds := voice_duration_seconds
        sentiment := sentiment
        summary := summary
        mood_score := mood_score
        tags := tags
        created_at := db.now
        updated_at := db.now }
    .ok (e, { entries := db.entries ++ [e], nextId := db.nextId + 1, now := db.now })

/-- Model of `EntryService.get_entry_by_id`: select the row whose id
matches (ids are unique under `DB.WF`). -/
def get_entry_by_id (db : DB) (entry_id : Nat) : Option Entry :=
  db.entries.find? (fun e => e.id == entry_id)

/-- Model of `EntryService.delete_entry`: remove rows with the given id and
report whether a row was removed. -/
def delete_entry (db : DB) (entry_id : Nat) : Bool × DB :=
  let kept := db.entries.filter (fun e => e.id ≠ entry_id)
  (kept.length < db.entries.length, { db with entries := kept })

/-- Model of `EntryService.count_entries_for_user`. -/
def count_entries_for_user (db : DB) (user_id : Int) : Nat :=
  (db.entries.filter (fun e => e.user_id = user_id)).length

end EntryService

/-! ## Transcription client (src/services/transcription.py)

The exception hierarchy is `TranscriptionError` (base, also raised
directly for empty input and for unexpected errors),
`TranscriptionAPIError` and `TranscriptionRateLimitError`; the error kind
below is the dynamic class of the raised exception. -/

/-- Kind (exception class) of a transcription failure: `generic` is the
base `TranscriptionError` class, `api` is `TranscriptionAPIError`,
`rateLimit` is `TranscriptionRateLimitError`. -/
inductive TransErrKind where
  | generic
  | api
  | rateLimit
  deriving DecidableEq, Repr

/-- Possible behaviours of the Whisper HTTP endpoint for one request:
a successful transcript, or each exception class the client catches. -/
inductive WhisperResponse where
  | ok (text : String)
  | rateLimit
  | connectionError
  | apiError (msg : String)
  | unexpected (msg : String)
  deriving DecidableEq, Repr

namespace WhisperService

/-- Model of `WhisperService.transcribe`.  The audio buffer is a byte
list; `api` is the oracle for the single Whisper API request.  Returns
the outcome (trimmed transcript, or error kind and message) paired with
the number of network calls performed. -/
def transcribe (api : List Nat → Option String → WhisperResponse)
    (audio_data : List Nat) (language : Option String) :
    Except (TransErrKind × String) String × Nat :=
  if audio_data.isEmpty then
    (.error (.generic, "Empty audio data provided"), 0)
  else
    match api audio_data language with
    | .ok t => (.ok (pyStrip t), 1)
    | .rateLimit =>
        (.error (.rateLimit, "Rate limit exceeded. Please try again later."), 1)
    | .connectionError =>
        (.error (.api, "Could not connect to transcription service. Please try again later."), 1)
    | .apiError m => (.error (.api, "Transcription failed: " ++ m), 1)
    | .unexpected m => (.error (.generic, "Transcription failed: " ++ m), 1)

/-- The kind of the error produced by a transcription outcome, when it is
an error. -/
def errKindOf (r : Except (TransErrKind × String) String) : Option TransErrKind :=
  match r with
  | .error (k, _) => some k
  | .ok _ => none

end WhisperService

/-! ## Analysis client (src/services/analysis.py)

`AnalysisResult` is a pydantic model; its `mood_score` field has a
before-mode validator that clamps integers into [1,10] and passes every
other value through unchanged, after which pydantic coerces the value to
an integer (lax mode) and enforces the declared bounds `ge=1, le=10`.
Python values reaching the validator are modelled by `PyVal` (Python
booleans, being integers via subclassing, are outside the modelled
universe; the claims under study concern non-integer values). -/

/-- A loosely-typed Python value as it may appear in the model's raw
response for the `mood_score` field. -/
inductive PyVal where
  | int (n : Int)
  | float (q : ℚ)
  | str (s : String)
  | list (l : List String)
  | none
  deriving DecidableEq, Repr

/-- Whether a value is a Python `int` (the `isinstance(v, int)` test). -/
def PyVal.isInt : PyVal → Bool
  | .int _ => true
  | _ => false

/-- A validated analysis result: the fields of the pydantic model after
validation succeeded. -/
structure AnalysisResult where
  summary : String
  mood_score : Int
  tags : List String
  deriving DecidableEq, Repr

/-- The raw structured output claimed by the language model, before
pydantic validation runs. -/
structure RawAnalysis where
  summary : String
  mood_score : PyVal
  tags : List String
  deriving DecidableEq, Repr

namespace AnalysisModel

/-- Model of the `clamp_mood_score` before-validator: clamp integers into
[1,10]; return any non-integer value unchanged. -/
def clamp_mood_score (v : PyVal) : PyVal :=
  match v with
  | .int n => .int (max 1 (min 10 n))
  | _ => v

/-- Model of the `limit_tags` before-validator: truncate a list to the
configured maximum tag count. -/
def limit_tags (maxTags : Nat) (v : List String) : List String :=
  v.take maxTags

/-- Model of pydantic lax coercion of a value to `int`: integers pass
through, integral floats and integer-literal strings coerce, everything
else fails. -/
def coerceInt : PyVal → Option Int
  | .int n => some n
  | .float q => if q.den = 1 then some q.num else Option.none
  | .str s => pyToInt? s
  | _ => Option.none

/-- Model of pydantic validation of the `mood_score` field: run the
before-validator, coerce to `int`, then enforce `ge=1, le=10`. -/
def validate_mood_score (v : PyVal) : Option Int :=
  match coerceInt (clamp_mood_score v) with
  | some n => if 1 ≤ n ∧ n ≤ 10 then some n else Option.none
  | Option.none => Option.none

/-- Model of pydantic validation of a full `AnalysisResult` from the raw
model output (`configMaxTags` is `config.analysis_max_tags`, read by the
`limit_tags` validator). -/
def validateAnalysis (configMaxTags : Nat) (raw : RawAnalysis) :
    Option AnalysisResult :=
  match validate_mood_score raw.mood_score with
  | some m => some ⟨raw.summary, m, limit_tags configMaxTags raw.tags⟩
  | Option.none => Option.none

end AnalysisModel

/-- Kind (exception class) of an analysis failure: `generic` is the base
`AnalysisError` class (also used for unexpected errors, including
pydantic validation errors raised inside the SDK parse call), `api` is
`AnalysisAPIError`, `rateLimit` is `AnalysisRateLimitError`, `parse` is
`AnalysisParseError`. -/
inductive AnalysisErrKind where
  | generic
  | api
  | rateLimit
  | parse
  deriving DecidableEq, Repr

/-- Possible behaviours of the chat-completions parse endpoint for one
request: a raw structured response (validation then happens client-side),
a response whose `parsed` field is `None`, or each caught exception
class.  A pydantic validation failure of the raw response surfaces as an
exception from the parse call, handled by the catch-all branch. -/
inductive LLMResponse where
  | parsed (raw : RawAnalysis)
  | parsedNone
  | rateLimit
  | connectionError
  | apiError (msg : String)
  | unexpected (msg : String)
  deriving DecidableEq, Repr

/-- Outcome of `analyze`: absent (gate declined, not an error), a
validated result, or a raised error of a given kind. -/
inductive AnalyzeOutcome where
  | absent
  | ok (r : AnalysisResult)
  | error (kind : AnalysisErrKind) (msg : String)
  deriving DecidableEq, Repr

namespace AnalysisService

/-- Message standing in for the pydantic `ValidationError` text wrapped by
the catch-all branch of `analyze`. -/
def validationFailureMsg : String := "Analysis failed: validation error"

/-- The long-input guard of `analyze`: text longer than 16000 characters
is silently truncated before submission to the model. -/
def truncForSubmit (text : String) : String :=
  if text.length > 16000 then ⟨text.data.take 16000⟩ else text

/-- Model of `AnalysisService.analyze`.  `minWords` is the configured
minimum word count, `configMaxTags` the cap read by the pydantic
validator, `svcMaxTags` the service's own cap applied redundantly after
receipt; `api` is the oracle for the single chat-completions request,
receiving the (possibly truncated) submitted text.  Returns the outcome
paired with whether a network call was made. -/
def analyze (minWords configMaxTags svcMaxTags : Nat)
    (api : String → LLMResponse) (text : String) :
    AnalyzeOutcome × Bool :=
  if text = "" ∨ pyStrip text = "" then (.absent, false)
  else if wordCount text < minWords then (.absent, false)
  else
    match api (truncForSubmit text) with
    | .parsed raw =>
        match AnalysisModel.validateAnalysis configMaxTags raw with
        | some r => (.ok { r with tags := r.tags.take svcMaxTags }, true)
        | Option.none => (.error .generic validationFailureMsg, true)
    | .parsedNone => (.error .parse "Failed to parse LLM response", true)
    | .rateLimit =>
        (.error .rateLimit "Rate limit exceeded. Please try again later.", true)
    | .connectionError =>
        (.error .api "Could not connect to analysis service. Please try again later.", true)
    | .apiError m => (.error .api ("Analysis failed: " ++ m), true)
    | .unexpected m => (.error .generic ("Analysis failed: " ++ m), true)

end AnalysisService

/-! ## Statistics service (src/services/stats.py)

The SQL queries are modelled as filters over the stored rows; `ORDER BY
created_at ASC` is modelled as a stable sort (insertion sort) by
`created_at`.  `Counter.most_common(n)` is a stable descending sort of
the counter's (tag, count) pairs in first-insertion order, truncated to
`n`.  Python float truthiness (`if avg_mood`) is modelled exactly: a zero
average is falsy. -/

/-- Day names used for the weekday mapping (Russian locale). -/
def DAY_NAMES_RU : List String := ["Пн", "Вт", "Ср", "Чт", "Пт", "Сб", "Вс"]

/-- Result of a stats calculation, mirroring the `StatsResult` dataclass
(the weekday mapping is an association list in dict insertion order). -/
structure StatsResult where
  total_entries : Nat
  avg_mood : Option ℚ
  mood_by_day : List (String × ℚ)
  trend : Option ℚ
  top_tags : List (String × Nat)
  deriving DecidableEq, Repr

namespace StatsService

/-- Rows of the current-period query: the user's entries with
`start_date <= created_at <= end_date` (both bounds inclusive), in stable
ascending `created_at` order. -/
def currentPeriodEntries (db : DB) (user_id : Int)
    (start_date end_date : Int) : List Entry :=
  (db.entries.filter (fun e =>
      decide (e.user_id = user_id ∧ start_date ≤ e.created_at ∧
        e.created_at ≤ end_date))).insertionSort
    (fun a b => a.created_at ≤ b.created_at)

/-- Mood scores present among a list of entries (nulls excluded). -/
def moodsOf (entries : List Entry) : List Int :=
  entries.filterMap (fun e => e.mood_score)

/-- Mean of a list of integer scores as an exact rational (`none` for the
empty list, where SQL AVG returns NULL and the Python code skips the
division). -/
def meanOf (moods : List Int) : Option ℚ :=
  if moods.isEmpty then Option.none
  else some ((moods.map (fun m : ℤ => (m : ℚ))).sum / (moods.length : ℚ))

/-- Model of `datetime.weekday()` on an abstract instant: instants count
minutes since a Monday-midnight epoch, so the weekday index is the day
index modulo 7. -/
def weekdayOf (t : Int) : Nat := ((t.fdiv 1440).emod 7).toNat

/-- First-occurrence-order deduplication, the insertion order of keys into
a Python dict. -/
def dedupFirst (l : List Nat) : List Nat :=
  l.foldl (fun acc w => if w ∈ acc then acc else acc ++ [w]) []

/-- Model of `StatsService._calculate_mood_by_day`: group scored entries
by weekday of `created_at`, in first-occurrence order, and round each
group's mean to one decimal place. -/
def calculate_mood_by_day (entries : List Entry) : List (String × ℚ) :=
  let scored := entries.filter (fun e => e.mood_score.isSome)
  let wds := dedupFirst (scored.map (fun e => weekdayOf e.created_at))
  wds.map (fun w =>
    let ms := moodsOf (scored.filter (fun e => weekdayOf e.created_at == w))
    (DAY_NAMES_RU.getD w "",
      round1 ((ms.map (fun m : ℤ => (m : ℚ))).sum / (ms.length : ℚ))))

/-- One step of building a `Counter`: increment the tag's count if the tag
is already a key, otherwise append it as a new key with count 1 (dict
insertion order preserved). -/
def bumpTag : List (String × Nat) → String → List (String × Nat)
  | [], t => [(t, 1)]
  | (s, c) :: rest, t =>
      if s = t then (s, c + 1) :: rest else (s, c) :: bumpTag rest t

/-- The tag occurrence stream of a list of entries, in entry order (the
double loop of `_calculate_top_tags`). -/
def tagStream (entries : List Entry) : List String :=
  entries.flatMap (fun e =>
    match e.tags with
    | some ts => ts
    | Option.none => [])

/-- The `Counter` built over the tag stream: (tag, count) pairs in
first-insertion order. -/
def tagCounter (entries : List Entry) : List (String × Nat) :=
  (tagStream entries).foldl bumpTag []

/-- Model of `Counter.most_common(limit)`: stable sort by count
descending (ties keep first-insertion order), truncated to `limit`. -/
def mostCommon (limit : Nat) (counts : List (String × Nat)) :
    List (String × Nat) :=
  (counts.insertionSort (fun a b => b.2 ≤ a.2)).take limit

/-- Model of `StatsService._calculate_top_tags` with its default
`limit = 5`. -/
def calculate_top_tags (entries : List Entry) (limit : Nat := 5) :
    List (String × Nat) :=
  mostCommon limit (tagCounter entries)

/-- Mood scores of the previous-period query: the user's entries with
`prev_start <= created_at < prev_end` (upper bound exclusive) and a
non-null mood score. -/
def prevPeriodMoods (db : DB) (user_id : Int)
    (prev_start prev_end : Int) : List Int :=
  moodsOf (db.entries.filter (fun e =>
    decide (e.user_id = user_id ∧ prev_start ≤ e.created_at ∧
      e.created_at < prev_end ∧ e.mood_score ≠ Option.none)))

/-- Model of `StatsService.get_stats`: `none` when the user has no entry
in `[start_date, end_date]`; otherwise the aggregate over the in-range
entries, with the trend compared against the preceding period of equal
length `[start_date - (end_date - start_date), start_date)`. -/
def get_stats (db : DB) (user_id : Int) (start_date end_date : Int) :
    Option StatsResult :=
  let entries := currentPeriodEntries db user_id start_date end_date
  if entries.isEmpty then Option.none
  else
    let total_entries := entries.length
    let moods := moodsOf entries
    let avg_mood := meanOf moods
    let mood_by_day := calculate_mood_by_day entries
    let period_length := end_date - start_date
    let prev_start := start_date - period_length
    let prev_end := start_date
    let prev_avg := meanOf (prevPeriodMoods db user_id prev_start prev_end)
    let trend :=
      match avg_mood, prev_avg with
      | some a, some p => some (round1 (a - p))
      | _, _ => Option.none
    let top_tags := calculate_top_tags entries
    some
      { total_entries := total_entries
        avg_mood :=
          match avg_mood with
          | some a => if a = 0 then Option.none else some (round1 a)
          | Option.none => Option.none
        mood_by_day := mood_by_day
        trend := trend
        top_tags := top_tags }

end StatsService

/-! ## Export service (src/services/export.py)

Calendar rendering of the `created_at` instant (`strftime`) is abstracted:
`formatDate` renders the day index (injective per calendar day, which is
all the markdown grouping relies on) and `formatTime` renders hh:mm of the
minute-of-day.  The CSV writer is modelled character-exactly for
`QUOTE_ALL` quoting: every field is wrapped in double quotes with embedded
double quotes doubled, fields are comma-separated and rows end in CRLF.
The JSON export is modelled as the structured object handed to
`json.dumps` (minus the wall-clock `export_date` field). -/

/-- Maximum transcription length in export (`MAX_TRANSCRIPTION_LENGTH`). -/
def MAX_TRANSCRIPTION_LENGTH : Nat := 500

/-- The export format enum. -/
inductive ExportFormat where
  | csv
  | markdown
  | json
  deriving DecidableEq, Repr

namespace ExportService

/-- Model of the module-level `_truncate` helper: texts of at most
`max_length` characters pass through unchanged; longer texts keep their
first `max_length - 3` characters followed by an ellipsis marker. -/
def truncateText (text : String)
    (max_length : Nat := MAX_TRANSCRIPTION_LENGTH) : String :=
  if text.length ≤ max_length then text
  else ⟨text.data.take (max_length - 3)⟩ ++ "..."

/-- Zero-padded two-digit rendering of a small number. -/
def pad2 (n : Nat) : String :=
  if n < 10 then "0" ++ toString n else toString n

/-- Abstract model of `strftime('%Y-%m-%d')`: renders the calendar day of
the instant (the day index since the epoch). -/
def formatDate (t : Int) : String := "day " ++ toString (t.fdiv 1440)

/-- Abstract model of `strftime('%H:%M')`: renders hour and minute of the
instant within its day. -/
def formatTime (t : Int) : String :=
  pad2 ((t.emod 1440).toNat / 60) ++ ":" ++ pad2 ((t.emod 1440).toNat % 60)

/-- Double every double-quote character (the `QUOTE_ALL` escaping of the
csv writer). -/
def escapeQuotes : List Char → List Char
  | [] => []
  | c :: cs =>
      if c = '"' then '"' :: '"' :: escapeQuotes cs
      else c :: escapeQuotes cs

/-- A fully quoted CSV field. -/
def quoteField (s : String) : String :=
  "\"" ++ (⟨escapeQuotes s.data⟩ : String) ++ "\""

/-- One CSV row: every field quoted, comma-separated, CRLF-terminated. -/
def csvRow (fields : List String) : String :=
  sepJoin "," (fields.map quoteField) ++ "\r\n"

/-- The header row written by `_export_csv`. -/
def csvHeaderFields : List String :=
  ["date", "time", "transcription", "summary", "mood_score", "tags"]

/-- The CSV field values of one entry row: date, time, truncated
transcription, summary, mood score and comma-joined tags, with Python
falsy values (`None`, empty string, zero score, empty list) rendered as
the empty field. -/
def entryCsvFields (e : Entry) : List String :=
  [formatDate e.created_at,
   formatTime e.created_at,
   truncateText e.transcription,
   (match e.summary with
    | some s => s
    | Option.none => ""),
   (match e.mood_score with
    | some n => if n = 0 then "" else toString n
    | Option.none => ""),
   (match e.tags with
    | some ts => if ts.isEmpty then "" else sepJoin "," ts
    | Option.none => "")]

/-- Model of `ExportService._export_csv`: header row followed by one row
per entry. -/
def export_csv (entries : List Entry) : String :=
  csvRow csvHeaderFields ++
    String.join (entries.map (fun e => csvRow (entryCsvFields e)))

/-- The markdown block of one entry: time-stamped subheading with mood and
tag annotations when (truthy-)present, the truncated transcription as a
quoted block, the summary when (truthy-)present, and a horizontal rule. -/
def mdEntryBlock (e : Entry) : List String :=
  let time_str := formatTime e.created_at
  let mood_str :=
    match e.mood_score with
    | some n => if n = 0 then "" else "Mood: " ++ toString n ++ "/10"
    | Option.none => ""
  let tags_str :=
    match e.tags with
    | some ts =>
        if ts.isEmpty then ""
        else sepJoin " " (ts.map (fun t => "#" ++ t))
    | Option.none => ""
  let header_parts :=
    ["### " ++ time_str] ++
      (if mood_str = "" then [] else [mood_str]) ++
      (if tags_str = "" then [] else ["🏷 " ++ tags_str])
  [sepJoin " - " header_parts, "",
   "> " ++ truncateText e.transcription, ""] ++
    (match e.summary with
     | some s => if s = "" then [] else ["**Summary:** " ++ s, ""]
     | Option.none => []) ++
    ["---", ""]

/-- The body lines of the markdown export: entries in order, with a date
heading emitted whenever the calendar date differs from the previous
entry's. -/
def mdBody : Option String → List Entry → List String
  | _, [] => []
  | current_date, e :: rest =>
      let date_str := formatDate e.created_at
      (if current_date = some date_str then [] else ["## " ++ date_str, ""]) ++
        mdEntryBlock e ++ mdBody (some date_str) rest

/-- Model of `ExportService._export_markdown` as its line list;
`genDate` is the rendered wall-clock generation date. -/
def export_markdown_lines (genDate : String) (entries : List Entry) :
    List String :=
  ["# Voice Journal Export - " ++ genDate, ""] ++ mdBody Option.none entries

/-- Model of `ExportService._export_markdown`: the lines joined by
newlines. -/
def export_markdown (genDate : String) (entries : List Entry) : String :=
  sepJoin "\n" (export_markdown_lines genDate entries)

/-- The per-entry object of the JSON export. -/
structure JsonEntryData where
  id : Nat
  created_at : Int
  transcription : String
  summary : Option String
  mood_score : Option Int
  tags : Option (List String)
  voice_duration_seconds : Option Int
  deriving DecidableEq, Repr

/-- The structured object of the JSON export (the wall-clock
`export_date` field is outside the model). -/
structure JsonExport where
  total_entries : Nat
  entries : List JsonEntryData
  deriving DecidableEq, Repr

/-- Model of `ExportService._export_json`: the structured object built
from the entries, transcriptions carried verbatim. -/
def export_json (entries : List Entry) : JsonExport :=
  { total_entries := entries.length
    entries := entries.map (fun e =>
      { id := e.id
        created_at := e.created_at
        transcription := e.transcription
        summary := e.summary
        mood_score := e.mood_score
        tags := e.tags
        voice_duration_seconds := e.voice_duration_seconds }) }

/-- All entries of a user in stable ascending `created_at` order: the
query of `export_entries`. -/
def userEntriesAsc (db : DB) (user_id : Int) : List Entry :=
  (db.entries.filter (fun e => decide (e.user_id = user_id))).insertionSort
    (fun a b => a.created_at ≤ b.created_at)

/-- Model of `parse_export_format`: missing/empty tokens default to CSV,
recognised case-insensitive tokens (with the markdown synonym) map to
their format, anything else is absent. -/
def parse_export_format (format_str : Option String) : Option ExportFormat :=
  match format_str with
  | Option.none => some .csv
  | some s =>
      if s = "" then some .csv
      else
        let fl := pyStrip (pyToLower s)
        if fl = "csv" then some .csv
        else if fl = "md" then some .markdown
        else if fl = "markdown" then some .markdown
        else if fl = "json" then some .json
        else Option.none

end ExportService

/-! ## Shared facts and example data -/

/-- Creation succeeds exactly when the user id is positive and the
transcription is non-empty after trimming, and the persisted row carries
the trimmed transcription, the caller's optional fields unchanged, and
the server-assigned id and timestamps. -/
theorem create_entry_ok (db : DB) (uid : Int) (t : String)
    (vf : Option String) (vd : Option Int) (sent : Option Unit)
    (summ : Option String) (mood : Option Int) (tags : Option (List String))
    (h1 : 0 < uid) (h2 : pyStrip t ≠ "") :
    EntryService.create_entry db uid t vf vd sent summ mood tags =
      .ok
        ({ id := db.nextId, user_id := uid, transcription := pyStrip t
           voice_file_id := vf, voice_duration_seconds := vd
           sentiment := sent, summary := summ, mood_score := mood
           tags := tags, created_at := db.now, updated_at := db.now },
         { entries := db.entries ++
             [{ id := db.nextId, user_id := uid, transcription := pyStrip t
                voice_file_id := vf, voice_duration_seconds := vd
                sentiment := sent, summary := summ, mood_score := mood
                tags := tags, created_at := db.now, updated_at := db.now }]
           nextId := db.nextId + 1, now := db.now }) := by
  have hne : ¬(t = "" ∨ pyStrip t = "") := by
    rintro (rfl | h)
    · exact h2 rfl
    · exact h2 h
  simp [EntryService.create_entry, not_le.mpr h1, hne]

/-- A helper entry builder for concrete example databases. -/
def mkEntry (i : Nat) (uid : Int) (t : Int) (m : Option Int)
    (tg : Option (List String)) : Entry :=
  { id := i, user_id := uid, transcription := "entry text"
    voice_file_id := Option.none, voice_duration_seconds := Option.none
    sentiment := Option.none, summary := Option.none, mood_score := m
    tags := tg, created_at := t, updated_at := t }

/-! ## C1: mood_score handling at the entry store -/

/-- C1, counterexample.  An out-of-range mood score (42) passed to
`create_entry` for a valid entry (user 1, non-empty transcription) is
persisted as 42, outside [1,10]: the store neither clamps it into [1,10]
nor rejects it, contradicting the claim that the persisted mood_score of
every successful create lies in [1,10]. -/
theorem C1_counterexample :
    (EntryService.create_entry ⟨[], 0, 0⟩ 1 "hello" Option.none Option.none
        Option.none Option.none (some 42) Option.none).toOption.map
        (fun p => p.1.mood_score) = some (some 42) ∧
      ¬((42 : Int) ≤ 10) := by
  exact ⟨by decide, by decide⟩

/-- C1, amended.  For every successful create, the persisted entry's
mood_score is exactly the value passed to the store, stored as-is (neither
clamped nor rejected); the clamp into [1,10] is performed upstream, by the
analysis client's result validation, before a pipeline value reaches the
store: validating an integer mood score yields `max 1 (min 10 n)`, which
always lies in [1,10]. -/
theorem C1_mood_score_stored_as_is (db : DB) (uid : Int) (t : String)
    (vf : Option String) (vd : Option Int) (sent : Option Unit)
    (summ : Option String) (mood : Option Int) (tags : Option (List String))
    (h1 : 0 < uid) (h2 : pyStrip t ≠ "") :
    (∃ e db', EntryService.create_entry db uid t vf vd sent summ mood tags =
        .ok (e, db') ∧ e.mood_score = mood) ∧
    (∀ n : Int, AnalysisModel.validate_mood_score (.int n) =
        some (max 1 (min 10 n)) ∧
      1 ≤ max 1 (min 10 n) ∧ max 1 (min 10 n) ≤ 10) := by
  constructor
  · exact ⟨_, _, create_entry_ok db uid t vf vd sent summ mood tags h1 h2, rfl⟩
  · intro n
    refine ⟨?_, le_max_left _ _, ?_⟩
    · simp only [AnalysisModel.validate_mood_score, AnalysisModel.clamp_mood_score,
        AnalysisModel.coerceInt]
      have : 1 ≤ max 1 (min 10 n) ∧ max 1 (min 10 n) ≤ 10 := by
        constructor
        · exact le_max_left _ _
        · exact max_le (by norm_num) (le_trans (min_le_left _ _) (by norm_num))
      simp [this]
    · exact max_le (by norm_num) (le_trans (min_le_left _ _) (by norm_num))

/-- C1, witness: the amended theorem applied to a concrete create with an
out-of-range mood score 42. -/
theorem C1_witness :
    (∃ e db', EntryService.create_entry ⟨[], 0, 0⟩ 1 "hello" Option.none
        Option.none Option.none Option.none (some 42) Option.none =
        .ok (e, db') ∧ e.mood_score = some 42) ∧
    AnalysisModel.validate_mood_score (.int 42) = some 10 := by
  have h := C1_mood_score_stored_as_is ⟨[], 0, 0⟩ 1 "hello" Option.none
    Option.none Option.none Option.none (some 42) Option.none
    (by decide) (by decide)
  refine ⟨h.1, ?_⟩
  have h42 := (h.2 42).1
  simpa using h42

/-! ## C2: create / get_by_id round trip -/

/-- C2, counterexample.  Creating an entry with the transcription
" hi " (non-empty after trimming, so the create succeeds) persists the
stripped text "hi", so the record read back is not identical to the input
transcription. -/
theorem C2_counterexample :
    pyStrip " hi " ≠ "" ∧
    (EntryService.create_entry ⟨[], 0, 0⟩ 1 " hi " Option.none Option.none
        Option.none Option.none Option.none Option.none).toOption.map
        (fun p => p.1.transcription) = some "hi" ∧
    ("hi" : String) ≠ " hi " := by
  exact ⟨by decide, by decide, by decide⟩

/-- C2, amended.  For every well-formed database, user_id > 0 and
transcription non-empty after trimming, creating an entry and reading it
back by its returned id yields the same record, whose user_id equals the
input and whose transcription equals the trimmed input (identical to the
input whenever the input carries no leading or trailing whitespace), with
server-assigned id and created_at. -/
theorem C2_roundtrip (db : DB) (uid : Int) (t : String)
    (vf : Option String) (vd : Option Int) (sent : Option Unit)
    (summ : Option String) (mood : Option Int) (tags : Option (List String))
    (hwf : db.WF) (h1 : 0 < uid) (h2 : pyStrip t ≠ "") :
    ∃ e db', EntryService.create_entry db uid t vf vd sent summ mood tags =
        .ok (e, db') ∧
      EntryService.get_entry_by_id db' e.id = some e ∧
      e.user_id = uid ∧ e.transcription = pyStrip t ∧
      (t = pyStrip t → e.transcription = t) ∧
      e.id = db.nextId ∧ e.created_at = db.now := by
  refine ⟨_, _, create_entry_ok db uid t vf vd sent summ mood tags h1 h2,
    ?_, rfl, rfl, fun h => h ▸ rfl, rfl, rfl⟩
  unfold EntryService.get_entry_by_id
  rw [List.find?_append]
  have hnone : db.entries.find? (fun e => e.id == db.nextId) = Option.none := by
    rw [List.find?_eq_none]
    intro x hx
    simpa using Nat.ne_of_lt (hwf x hx)
  simp [hnone]

/-- C2, witness: the amended round trip on a concrete database and
already-trimmed transcription. -/
theorem C2_witness :
    ∃ e db', EntryService.create_entry ⟨[], 5, 99⟩ 7 "today was good"
        Option.none Option.none Option.none Option.none Option.none
        Option.none = .ok (e, db') ∧
      EntryService.get_entry_by_id db' e.id = some e ∧
      e.user_id = 7 ∧ e.transcription = "today was good" ∧
      e.id = 5 ∧ e.created_at = 99 := by
  obtain ⟨e, db', hc, hg, hu, ht, _, hid, hca⟩ :=
    C2_roundtrip ⟨[], 5, 99⟩ 7 "today was good" Option.none Option.none
      Option.none Option.none Option.none Option.none
      (by intro x hx; simp at hx) (by decide) (by decide)
  exact ⟨e, db', hc, hg, hu, by rw [ht]; decide, hid, hca⟩

/-! ## C3: transcription of an empty buffer -/

/-- C3, counterexample.  The failure raised for an empty audio buffer is
the base TranscriptionError class, the same error kind the catch-all
branch raises for an unexpected failure on a non-empty buffer: there is
no distinct EmptyInput error kind, only a distinct message. -/
theorem C3_counterexample :
    WhisperService.transcribe (fun _ _ => .unexpected "boom") []
        Option.none =
      (.error (.generic, "Empty audio data provided"), 0) ∧
    WhisperService.transcribe (fun _ _ => .unexpected "boom") [1]
        Option.none =
      (.error (.generic, "Transcription failed: boom"), 1) ∧
    WhisperService.errKindOf
        (WhisperService.transcribe (fun _ _ => .unexpected "boom") []
          Option.none).1 =
      WhisperService.errKindOf
        (WhisperService.transcribe (fun _ _ => .unexpected "boom") [1]
          Option.none).1 := by
  exact ⟨rfl, rfl, rfl⟩

/-- C3, amended.  For every oracle behaviour and language hint,
transcribing an empty audio buffer fails with the base TranscriptionError
kind (the same exception class as generic unexpected failures, with the
distinguishing message "Empty audio data provided") and performs no
network call: the failure occurs before any contact with the
speech-to-text service. -/
theorem C3_empty_input (api : List Nat → Option String → WhisperResponse)
    (language : Option String) :
    WhisperService.transcribe api [] language =
      (.error (.generic, "Empty audio data provided"), 0) := rfl

/-! ## C4: the analysis word-count gate -/

/-- C4.  For every configuration, oracle and text that is empty or
whitespace-only after trimming, or whose whitespace-delimited word count
is below the configured minimum, analyze returns absent without making a
network call; the outcome is the absent value, not an error. -/
theorem C4_analysis_gate (minWords configMaxTags svcMaxTags : Nat)
    (api : String → LLMResponse) (text : String)
    (h : pyStrip text = "" ∨ wordCount text < minWords) :
    AnalysisService.analyze minWords configMaxTags svcMaxTags api text =
      (.absent, false) := by
  unfold AnalysisService.analyze
  rcases h with h | h
  · rw [if_pos (Or.inr h)]
  · by_cases he : text = "" ∨ pyStrip text = ""
    · rw [if_pos he]
    · rw [if_neg he, if_pos h]

/-- C4, witness: a two-word text under a ten-word minimum returns absent
with no network call, through the gate theorem. -/
theorem C4_witness :
    AnalysisService.analyze 10 5 5 (fun _ => .rateLimit) "hi there" =
      (.absent, false) :=
  C4_analysis_gate 10 5 5 (fun _ => .rateLimit) "hi there"
    (Or.inr (by decide))

/-! ## C10: non-integer mood values are not clamped -/

/-- C10.  The clamping pre-validator returns every non-integer value
unchanged, so clamping applies only to integers; consequently a
non-integer value that laxly coerces to an out-of-range integer fails
AnalysisResult validation, and an analyze call whose model response
carries such a mood value raises the base analysis error instead of
returning a result with a clamped score. -/
theorem C10_nonint_mood_not_clamped (v : PyVal) (m : Int)
    (minWords configMaxTags svcMaxTags : Nat) (api : String → LLMResponse)
    (text : String) (raw : RawAnalysis)
    (hv : v.isInt = false) (hc : AnalysisModel.coerceInt v = some m)
    (hout : m < 1 ∨ 10 < m)
    (htext : pyStrip text ≠ "") (hwords : minWords ≤ wordCount text)
    (hapi : api (AnalysisService.truncForSubmit text) = .parsed raw)
    (hraw : raw.mood_score = v) :
    AnalysisModel.clamp_mood_score v = v ∧
    AnalysisModel.validate_mood_score v = Option.none ∧
    AnalysisService.analyze minWords configMaxTags svcMaxTags api text =
      (.error .generic AnalysisService.validationFailureMsg, true) := by
  have hclamp : AnalysisModel.clamp_mood_score v = v := by
    cases v <;> simp_all [PyVal.isInt, AnalysisModel.clamp_mood_score]
  have hval : AnalysisModel.validate_mood_score v = Option.none := by
    unfold AnalysisModel.validate_mood_score
    rw [hclamp, hc]
    have : ¬(1 ≤ m ∧ m ≤ 10) := by omega
    simp [this]
  refine ⟨hclamp, hval, ?_⟩
  have hne : ¬(text = "" ∨ pyStrip text = "") := by
    rintro (rfl | h)
    · exact htext rfl
    · exact htext h
  unfold AnalysisService.analyze
  rw [if_neg hne, if_neg (not_lt.mpr hwords), hapi]
  simp only [AnalysisModel.validateAnalysis, hraw, hval]

/-- C10, witness: the model responding with the non-integer string "15"
for mood_score (which coerces to the out-of-range integer 15) makes the
validator fail and analyze raise, through the main theorem. -/
theorem C10_witness :
    AnalysisModel.clamp_mood_score (.str "15") = .str "15" ∧
    AnalysisModel.validate_mood_score (.str "15") = Option.none ∧
    AnalysisService.analyze 1 5 5
        (fun _ => .parsed ⟨"a summary", .str "15", []⟩) "hello world" =
      (.error .generic AnalysisService.validationFailureMsg, true) :=
  C10_nonint_mood_not_clamped (.str "15") 15 1 5 5
    (fun _ => .parsed ⟨"a summary", .str "15", []⟩) "hello world"
    ⟨"a summary", .str "15", []⟩ (by decide) (by decide) (by decide)
    (by decide) (by decide) rfl rfl

/-! ## Statistics: shared unfolding lemma and counting facts -/

/-- When the user has at least one entry in range, `get_stats` returns
the aggregate record, spelled out field by field. -/
theorem get_stats_eq (db : DB) (uid s e : Int)
    (hne : StatsService.currentPeriodEntries db uid s e ≠ []) :
    StatsService.get_stats db uid s e = some
      { total_entries := (StatsService.currentPeriodEntries db uid s e).length
        avg_mood :=
          match StatsService.meanOf
              (StatsService.moodsOf (StatsService.currentPeriodEntries db uid s e)) with
          | some a => if a = 0 then Option.none else some (round1 a)
          | Option.none => Option.none
        mood_by_day :=
          StatsService.calculate_mood_by_day
            (StatsService.currentPeriodEntries db uid s e)
        trend :=
          match StatsService.meanOf
              (StatsService.moodsOf (StatsService.currentPeriodEntries db uid s e)),
            StatsService.meanOf
              (StatsService.prevPeriodMoods db uid (s - (e - s)) s) with
          | some a, some p => some (round1 (a - p))
          | _, _ => Option.none
        top_tags :=
          StatsService.calculate_top_tags
            (StatsService.currentPeriodEntries db uid s e) } := by
  have hF : (StatsService.currentPeriodEntries db uid s e).isEmpty = false := by
    simpa [List.isEmpty_iff] using hne
  unfold StatsService.get_stats
  simp only [hF, Bool.false_eq_true, if_false]

/-- Lookup of a tag's count in an association list (the dictionary lookup
underlying the Counter model). -/
def lookupCount (acc : List (String × Nat)) (t : String) : Nat :=
  ((acc.find? (fun p => p.1 == t)).map Prod.snd).getD 0

theorem lookupCount_bumpTag_self (acc : List (String × Nat)) (t : String) :
    lookupCount (StatsService.bumpTag acc t) t = lookupCount acc t + 1 := by
  induction acc with
  | nil => simp [StatsService.bumpTag, lookupCount]
  | cons hd tl ih =>
      obtain ⟨s, c⟩ := hd
      by_cases h : s = t
      · subst h
        simp [StatsService.bumpTag, lookupCount]
      · have hb : (s == t) = false := by simp [h]
        simpa [StatsService.bumpTag, lookupCount, h, hb, List.find?] using ih

theorem lookupCount_bumpTag_ne (acc : List (String × Nat)) (t u : String)
    (h : u ≠ t) :
    lookupCount (StatsService.bumpTag acc t) u = lookupCount acc u := by
  induction acc with
  | nil => simp [StatsService.bumpTag, lookupCount, Ne.symm h]
  | cons hd tl ih =>
      obtain ⟨s, c⟩ := hd
      by_cases hs : s = t
      · subst hs
        have hb : (s == u) = false := by simp [Ne.symm h]
        simp [StatsService.bumpTag, lookupCount, hb]
      · by_cases hsu : s = u
        · subst hsu
          simp [StatsService.bumpTag, hs, lookupCount]
        · have hb : (s == u) = false := by simp [hsu]
          simpa [StatsService.bumpTag, lookupCount, hs, hb, List.find?] using ih

theorem lookupCount_foldl (l : List String) :
    ∀ (acc : List (String × Nat)) (t : String),
      lookupCount (l.foldl StatsService.bumpTag acc) t =
        lookupCount acc t + l.count t := by
  induction l with
  | nil => intro acc t; simp
  | cons u tl ih =>
      intro acc t
      simp only [List.foldl_cons]
      rw [ih]
      by_cases h : t = u
      · subst h
        rw [lookupCount_bumpTag_self, List.count_cons_self]
        omega
      · rw [lookupCount_bumpTag_ne _ _ _ h, List.count_cons_of_ne h]

/-- The Counter model is correct: the count recorded for a tag is its
number of occurrences in the tag stream. -/
theorem lookupCount_tagCounter (entries : List Entry) (t : String) :
    lookupCount (StatsService.tagCounter entries) t =
      (StatsService.tagStream entries).count t := by
  unfold StatsService.tagCounter
  rw [lookupCount_foldl]
  simp [lookupCount]

theorem mem_keys_bumpTag {x : String} :
    ∀ (acc : List (String × Nat)) (t : String),
      x ∈ (StatsService.bumpTag acc t).map Prod.fst →
        x ∈ acc.map Prod.fst ∨ x = t := by
  intro acc t
  induction acc with
  | nil => simp [StatsService.bumpTag]
  | cons hd tl ih =>
      obtain ⟨s, c⟩ := hd
      by_cases h : s = t
      · subst h
        simp [StatsService.bumpTag]
        tauto
      · simp only [StatsService.bumpTag, if_neg h, List.map_cons, List.mem_cons]
        rintro (rfl | hx)
        · exact Or.inl (Or.inl rfl)
        · rcases ih hx with h1 | h1
          · exact Or.inl (Or.inr h1)
          · exact Or.inr h1

theorem nodup_keys_bumpTag :
    ∀ (acc : List (String × Nat)) (t : String),
      (acc.map Prod.fst).Nodup → ((StatsService.bumpTag acc t).map Prod.fst).Nodup := by
  intro acc t
  induction acc with
  | nil => simp [StatsService.bumpTag]
  | cons hd tl ih =>
      obtain ⟨s, c⟩ := hd
      intro hnd
      rw [List.map_cons, List.nodup_cons] at hnd
      by_cases h : s = t
      · subst h
        simpa [StatsService.bumpTag, List.nodup_cons] using hnd
      · rw [StatsService.bumpTag, if_neg h, List.map_cons, List.nodup_cons]
        refine ⟨fun hx => ?_, ih hnd.2⟩
        rcases mem_keys_bumpTag tl t hx with h1 | h1
        · exact hnd.1 h1
        · exact h h1

theorem nodup_keys_foldl (l : List String) :
    ∀ acc : List (String × Nat),
      (acc.map Prod.fst).Nodup →
        ((l.foldl StatsService.bumpTag acc).map Prod.fst).Nodup := by
  induction l with
  | nil => intro acc h; simpa using h
  | cons u tl ih =>
      intro acc h
      simpa using ih _ (nodup_keys_bumpTag acc u h)

theorem lookupCount_of_mem :
    ∀ (acc : List (String × Nat)), (acc.map Prod.fst).Nodup →
      ∀ {t : String} {c : Nat}, (t, c) ∈ acc → lookupCount acc t = c := by
  intro acc
  induction acc with
  | nil => intro _ t c h; simp at h
  | cons hd tl ih =>
      obtain ⟨s, c'⟩ := hd
      intro hnd t c hm
      rw [List.map_cons, List.nodup_cons] at hnd
      rcases List.mem_cons.mp hm with heq | htl
      · injection heq.symm with h1 h2
        subst h1
        subst h2
        simp [lookupCount]
      · have hst : s ≠ t := by
          rintro rfl
          exact hnd.1 (List.mem_map.mpr ⟨(s, c), htl, rfl⟩)
        have hb : (s == t) = false := by simp [hst]
        simpa [lookupCount, hb, List.find?] using ih hnd.2 htl

/-- Floor of an integer cast to the rationals is the integer itself. -/
theorem ratFloor_intCast (n : ℤ) : ratFloor (n : ℚ) = n := by
  simp [ratFloor, Rat.num_intCast, Rat.den_intCast]

/-- Rounding an integer-valued rational to the nearest integer returns
that integer. -/
theorem roundHalfEven_intCast (n : ℤ) : roundHalfEven (n : ℚ) = n := by
  unfold roundHalfEven
  rw [ratFloor_intCast]
  simp only [sub_self]
  rw [if_pos (by norm_num : (0 : ℚ) < 1 / 2)]

/-- Rounding an integer-valued rational to one decimal place returns it
unchanged. -/
theorem round1_intCast (n : ℤ) : round1 (n : ℚ) = (n : ℚ) := by
  unfold round1
  have h : (10 : ℚ) * (n : ℚ) = ((10 * n : ℤ) : ℚ) := by push_cast; ring
  rw [h, roundHalfEven_intCast]
  push_cast
  ring

/-! ## C5: average mood over the period -/

/-- C5.  For every user and date range containing at least one entry
(and entry data respecting the data-model invariant that present mood
scores are at least 1), get_stats succeeds; total_entries counts all
in-range entries, scored or not; avg_mood is absent when no in-range
entry has a mood score, and otherwise equals the mean of exactly the
present mood scores, rounded to one decimal place. -/
theorem C5_avg_mood (db : DB) (uid s e : Int)
    (hne : StatsService.currentPeriodEntries db uid s e ≠ [])
    (hmood : ∀ m ∈ StatsService.moodsOf
      (StatsService.currentPeriodEntries db uid s e), 1 ≤ m) :
    ∃ st, StatsService.get_stats db uid s e = some st ∧
      st.total_entries = (StatsService.currentPeriodEntries db uid s e).length ∧
      (StatsService.moodsOf (StatsService.currentPeriodEntries db uid s e) = [] →
        st.avg_mood = Option.none) ∧
      (StatsService.moodsOf (StatsService.currentPeriodEntries db uid s e) ≠ [] →
        st.avg_mood = some (round1
          (((StatsService.moodsOf
                (StatsService.currentPeriodEntries db uid s e)).map
              (fun m : ℤ => (m : ℚ))).sum /
            ((StatsService.moodsOf
                (StatsService.currentPeriodEntries db uid s e)).length : ℚ)))) := by
  refine ⟨_, get_stats_eq db uid s e hne, rfl, ?_, ?_⟩
  · intro h
    have hmean0 : StatsService.meanOf (StatsService.moodsOf
        (StatsService.currentPeriodEntries db uid s e)) = Option.none := by
      simp [StatsService.meanOf, h]
    dsimp only
    rw [hmean0]
  · intro h
    have hF : (StatsService.moodsOf
        (StatsService.currentPeriodEntries db uid s e)).isEmpty = false := by
      simpa [List.isEmpty_iff] using h
    have hmean : StatsService.meanOf
        (StatsService.moodsOf (StatsService.currentPeriodEntries db uid s e)) =
        some (((StatsService.moodsOf
              (StatsService.currentPeriodEntries db uid s e)).map
            (fun m : ℤ => (m : ℚ))).sum /
          ((StatsService.moodsOf
              (StatsService.currentPeriodEntries db uid s e)).length : ℚ)) := by
      simp only [StatsService.meanOf, hF, Bool.false_eq_true, if_false]
    have hpos : 0 < ((StatsService.moodsOf
          (StatsService.currentPeriodEntries db uid s e)).map
        (fun m : ℤ => (m : ℚ))).sum := by
      apply List.sum_pos
      · intro x hx
        obtain ⟨m, hm, hfm⟩ := List.mem_map.mp hx
        rw [← hfm]
        have h1 : (0 : Int) < m := lt_of_lt_of_le Int.zero_lt_one (hmood m hm)
        exact_mod_cast h1
      · intro hmap
        have hlen0 := congrArg List.length hmap
        simp only [List.length_map, List.length_nil] at hlen0
        exact h (List.length_eq_zero.mp hlen0)
    have hlen : (0 : ℚ) < ((StatsService.moodsOf
        (StatsService.currentPeriodEntries db uid s e)).length : ℚ) := by
      have := List.length_pos.mpr h
      exact_mod_cast this
    have hq : (0 : ℚ) < ((StatsService.moodsOf
          (StatsService.currentPeriodEntries db uid s e)).map
        (fun m : ℤ => (m : ℚ))).sum /
        ((StatsService.moodsOf
            (StatsService.currentPeriodEntries db uid s e)).length : ℚ) :=
      div_pos hpos hlen
    dsimp only
    rw [hmean]
    dsimp only
    rw [if_neg hq.ne']

/-- A concrete database realizing the worked example of C5: three
in-range entries of user 1 with mood scores 8, absent, 6. -/
def exampleDB5 : DB :=
  ⟨[mkEntry 0 1 10 (some 8) Option.none,
    mkEntry 1 1 20 Option.none Option.none,
    mkEntry 2 1 30 (some 6) Option.none], 3, 100⟩

/-- C5, witness: on the [8, null, 6] example database the theorem gives
total_entries 3 and avg_mood 7.0. -/
theorem C5_witness :
    ∃ st, StatsService.get_stats exampleDB5 1 0 50 = some st ∧
      st.total_entries = 3 ∧ st.avg_mood = some 7 := by
  obtain ⟨st, hst, htot, _, havg⟩ :=
    C5_avg_mood exampleDB5 1 0 50 (by decide) (by decide)
  refine ⟨st, hst, ?_, ?_⟩
  · rw [htot]; decide
  · have hmoods : StatsService.moodsOf
        (StatsService.currentPeriodEntries exampleDB5 1 0 50) = [8, 6] := by
      decide
    rw [havg (by decide), hmoods]
    have h7 : ((([8, 6] : List ℤ).map (fun m : ℤ => (m : ℚ))).sum /
        (([8, 6] : List ℤ).length : ℚ)) = ((7 : ℤ) : ℚ) := by
      norm_num
    rw [h7, round1_intCast]
    norm_num

/-! ## C6: trend against the preceding period -/

/-- C6.  For every user and range [start, end] with at least one in-range
entry, the trend of get_stats compares the current-period mean mood with
the mean over the immediately preceding equal-length period
[start - (end - start), start), the query excluding start itself so the
periods do not overlap: trend is absent whenever either period lacks a
computable average, and otherwise equals round(current - previous, 1),
so a positive value means the mood improved. -/
theorem C6_trend (db : DB) (uid s e : Int)
    (hne : StatsService.currentPeriodEntries db uid s e ≠ []) :
    ∃ st, StatsService.get_stats db uid s e = some st ∧
      ((StatsService.meanOf (StatsService.moodsOf
          (StatsService.currentPeriodEntries db uid s e)) = Option.none ∨
        StatsService.meanOf
          (StatsService.prevPeriodMoods db uid (s - (e - s)) s) = Option.none) →
        st.trend = Option.none) ∧
      (∀ a p, StatsService.meanOf (StatsService.moodsOf
            (StatsService.currentPeriodEntries db uid s e)) = some a →
        StatsService.meanOf
            (StatsService.prevPeriodMoods db uid (s - (e - s)) s) = some p →
        st.trend = some (round1 (a - p))) ∧
      (∀ x, x ∈ db.entries.filter (fun en => decide (en.user_id = uid ∧
          s - (e - s) ≤ en.created_at ∧ en.created_at < s ∧
          en.mood_score ≠ Option.none)) ↔
        (x ∈ db.entries ∧ x.user_id = uid ∧ s - (e - s) ≤ x.created_at ∧
          x.created_at < s ∧ x.mood_score ≠ Option.none)) := by
  refine ⟨_, get_stats_eq db uid s e hne, ?_, ?_, ?_⟩
  · rintro (h | h)
    · dsimp only
      rw [h]
    · dsimp only
      rw [h]
      cases StatsService.meanOf (StatsService.moodsOf
        (StatsService.currentPeriodEntries db uid s e)) <;> rfl
  · intro a p ha hp
    dsimp only
    rw [ha, hp]
  · intro x
    simp only [List.mem_filter, decide_eq_true_eq]

/-- A concrete database for the C6 witness: current period holds one
entry with mood 8, the preceding equal-length period one entry with mood
6, so the trend is +2.0. -/
def exampleDB6 : DB :=
  ⟨[mkEntry 0 1 (-30) (some 6) Option.none,
    mkEntry 1 1 10 (some 8) Option.none], 2, 100⟩

/-- C6, witness: on the example database with range [0, 50] (previous
period [-50, 0)), the theorem yields trend round(8 - 6, 1) = 2.0. -/
theorem C6_witness :
    ∃ st, StatsService.get_stats exampleDB6 1 0 50 = some st ∧
      st.trend = some 2 := by
  obtain ⟨st, hst, _, hsome, _⟩ := C6_trend exampleDB6 1 0 50 (by decide)
  refine ⟨st, hst, ?_⟩
  have hm1 : StatsService.moodsOf
      (StatsService.currentPeriodEntries exampleDB6 1 0 50) = [8] := by decide
  have hm2 : StatsService.prevPeriodMoods exampleDB6 1 (0 - (50 - 0)) 0 = [6] := by
    decide
  have ha : StatsService.meanOf (StatsService.moodsOf
      (StatsService.currentPeriodEntries exampleDB6 1 0 50)) = some 8 := by
    rw [hm1]
    norm_num [StatsService.meanOf]
  have hp : StatsService.meanOf
      (StatsService.prevPeriodMoods exampleDB6 1 (0 - (50 - 0)) 0) = some 6 := by
    rw [hm2]
    norm_num [StatsService.meanOf]
  rw [hsome 8 6 ha hp]
  have h2 : (8 : ℚ) - 6 = ((2 : ℤ) : ℚ) := by norm_num
  rw [h2, round1_intCast]
  norm_num

/-! ## C7: top tags ranking -/

/-- C7.  For every user and date range with at least one in-range entry,
the top_tags of get_stats are the most-common ranking of the tag counter
built over the in-range entries in ascending created_at order: at most 5
pairs, each pair's count being the exact number of occurrences of its tag
among the in-range entries' tags, sorted by count descending with ties
kept in first-encountered order (the stable descending sort of the
counter's first-insertion-order pairs). -/
theorem C7_top_tags (db : DB) (uid s e : Int)
    (hne : StatsService.currentPeriodEntries db uid s e ≠ []) :
    ∃ st, StatsService.get_stats db uid s e = some st ∧
      st.top_tags = StatsService.mostCommon 5
        (StatsService.tagCounter (StatsService.currentPeriodEntries db uid s e)) ∧
      st.top_tags.length ≤ 5 ∧
      (∀ p ∈ st.top_tags, p.2 =
        (StatsService.tagStream
          (StatsService.currentPeriodEntries db uid s e)).count p.1) ∧
      List.Pairwise (fun a b : String × Nat => b.2 ≤ a.2) st.top_tags := by
  haveI htot : IsTotal (String × Nat) (fun a b => b.2 ≤ a.2) :=
    ⟨fun a b => le_total b.2 a.2⟩
  haveI htr : IsTrans (String × Nat) (fun a b => b.2 ≤ a.2) :=
    ⟨fun _ _ _ h1 h2 => le_trans h2 h1⟩
  refine ⟨_, get_stats_eq db uid s e hne, rfl, ?_, ?_, ?_⟩
  · exact List.length_take_le _ _
  · intro p hp
    have hp1 : p ∈ (StatsService.tagCounter
        (StatsService.currentPeriodEntries db uid s e)).insertionSort
        (fun a b => b.2 ≤ a.2) :=
      List.mem_of_mem_take hp
    have hp2 : p ∈ StatsService.tagCounter
        (StatsService.currentPeriodEntries db uid s e) :=
      (List.perm_insertionSort _ _).mem_iff.mp hp1
    have hnd : ((StatsService.tagCounter
        (StatsService.currentPeriodEntries db uid s e)).map Prod.fst).Nodup :=
      nodup_keys_foldl _ [] (by simp)
    obtain ⟨t, c⟩ := p
    have := lookupCount_of_mem _ hnd hp2
    rw [← this, lookupCount_tagCounter]
  · have hs : List.Pairwise (fun a b : String × Nat => b.2 ≤ a.2)
        ((StatsService.tagCounter
          (StatsService.currentPeriodEntries db uid s e)).insertionSort
          (fun a b => b.2 ≤ a.2)) :=
      List.sorted_insertionSort _ _
    exact hs.sublist (List.take_sublist _ _)

/-- A concrete database for the C7 witness, with in-range tag lists
[["work","ideas"], ["work"], ["rest","work"], ["ideas"]] in ascending
created_at order. -/
def exampleDB7 : DB :=
  ⟨[mkEntry 0 1 10 Option.none (some ["work", "ideas"]),
    mkEntry 1 1 20 Option.none (some ["work"]),
    mkEntry 2 1 30 Option.none (some ["rest", "work"]),
    mkEntry 3 1 40 Option.none (some ["ideas"])], 4, 100⟩

/-- C7, witness: on the example database the theorem applies, and the
computed ranking starts ("work", 3), ("ideas", 2). -/
theorem C7_witness :
    ∃ st, StatsService.get_stats exampleDB7 1 0 50 = some st ∧
      st.top_tags = [("work", 3), ("ideas", 2), ("rest", 1)] := by
  obtain ⟨st, hst, htags, _, _, _⟩ := C7_top_tags exampleDB7 1 0 50 (by decide)
  refine ⟨st, hst, ?_⟩
  rw [htags]
  decide

/-! ## C8: transcription truncation asymmetry across export formats -/

/-- Every entry of a markdown export body carries its quoted,
truncated transcription line. -/
theorem mem_mdBody (x : Entry) :
    ∀ (cur : Option String) (entries : List Entry), x ∈ entries →
      ("> " ++ ExportService.truncateText x.transcription) ∈
        ExportService.mdBody cur entries := by
  intro cur entries
  induction entries generalizing cur with
  | nil => intro h; simp at h
  | cons a rest ih =>
      intro h
      rw [ExportService.mdBody]
      rcases List.mem_cons.mp h with rfl | hmem
      · refine List.mem_append.mpr (Or.inl (List.mem_append.mpr (Or.inr ?_)))
        simp [ExportService.mdEntryBlock]
      · exact List.mem_append.mpr (Or.inr (ih _ hmem))

/-- C8.  Transcriptions of at most 500 characters pass through truncation
unchanged; longer ones are cut to their first 497 characters plus the
3-character ellipsis marker, totalling exactly 500 characters; the
structured (JSON) export carries every transcription verbatim regardless
of length, while the tabular rows and the narrative quoted blocks render
the truncated transcription. -/
theorem C8_truncation_asymmetry :
    (∀ t : String, t.length ≤ 500 → ExportService.truncateText t = t) ∧
    (∀ t : String, 500 < t.length →
      ExportService.truncateText t = (⟨t.data.take 497⟩ : String) ++ "..." ∧
      (ExportService.truncateText t).length = 500) ∧
    (∀ entries : List Entry,
      (ExportService.export_json entries).entries.map (fun j => j.transcription) =
        entries.map (fun x => x.transcription)) ∧
    (∀ x : Entry, (ExportService.entryCsvFields x)[2]? =
      some (ExportService.truncateText x.transcription)) ∧
    (∀ (genDate : String) (entries : List Entry) (x : Entry), x ∈ entries →
      ("> " ++ ExportService.truncateText x.transcription) ∈
        ExportService.export_markdown_lines genDate entries) := by
  refine ⟨?_, ?_, ?_, ?_, ?_⟩
  · intro t h
    unfold ExportService.truncateText
    simp only [MAX_TRANSCRIPTION_LENGTH]
    rw [if_pos h]
  · intro t h
    have h' : ¬ t.length ≤ MAX_TRANSCRIPTION_LENGTH := by
      simp only [MAX_TRANSCRIPTION_LENGTH]
      omega
    have heq : ExportService.truncateText t = (⟨t.data.take 497⟩ : String) ++ "..." := by
      unfold ExportService.truncateText
      rw [if_neg h']
      norm_num [MAX_TRANSCRIPTION_LENGTH]
    refine ⟨heq, ?_⟩
    rw [heq]
    show ((t.data.take 497) ++ "...".data).length = 500
    rw [List.length_append, List.length_take]
    have h1 : 500 < t.data.length := h
    have h3 : ("...".data).length = 3 := rfl
    rw [h3]
    omega
  · intro entries
    simp [ExportService.export_json, List.map_map, Function.comp]
  · intro x
    rfl
  · intro genDate entries x hx
    exact List.mem_append.mpr (Or.inr (mem_mdBody x Option.none entries hx))

/-- C8, witness: a 1000-character transcription is preserved verbatim by
the structured export model and truncated to exactly 500 characters in
the truncation helper used by the tabular and narrative formats. -/
theorem C8_witness :
    ExportService.truncateText (⟨List.replicate 1000 'a'⟩ : String) =
      (⟨List.replicate 497 'a'⟩ : String) ++ "..." ∧
    (ExportService.truncateText (⟨List.replicate 1000 'a'⟩ : String)).length = 500 ∧
    ExportService.truncateText "short" = "short" ∧
    (ExportService.export_json
        [mkEntry 0 1 0 Option.none Option.none]).entries.map
      (fun j => j.transcription) = ["entry text"] := by
  obtain ⟨c1, c2, c3, _, _⟩ := C8_truncation_asymmetry
  have hlen : 500 < (⟨List.replicate 1000 'a'⟩ : String).length := by
    show 500 < (List.replicate 1000 'a').length
    simp
  refine ⟨?_, (c2 _ hlen).2, c1 "short" (by decide), ?_⟩
  · rw [(c2 _ hlen).1]
    show (⟨(List.replicate 1000 'a').take 497⟩ : String) ++ "..." =
      (⟨List.replicate 497 'a'⟩ : String) ++ "..."
    rw [List.take_replicate]
    norm_num
  · rw [c3 [mkEntry 0 1 0 Option.none Option.none]]
    rfl

/-! ## C9: tabular export header -/

/-- C9.  For every user with zero persisted entries, the tabular export
is exactly one fully quoted header row with columns date, time,
transcription, summary, mood_score, tags and no data rows; and for every
entry list whatsoever the tabular output starts with that same header
row. -/
theorem C9_csv_header (db : DB) (uid : Int)
    (hz : ∀ x ∈ db.entries, x.user_id ≠ uid) :
    ExportService.export_csv (ExportService.userEntriesAsc db uid) =
      "\"date\",\"time\",\"transcription\",\"summary\",\"mood_score\",\"tags\"\r\n" ∧
    (∀ entries : List Entry, ∃ rest,
      ExportService.export_csv entries =
        "\"date\",\"time\",\"transcription\",\"summary\",\"mood_score\",\"tags\"\r\n"
          ++ rest) := by
  constructor
  · have hfil : db.entries.filter (fun x => decide (x.user_id = uid)) = [] := by
      rw [List.filter_eq_nil_iff]
      intro a ha
      simp [hz a ha]
    have hnil : ExportService.userEntriesAsc db uid = [] := by
      unfold ExportService.userEntriesAsc
      rw [hfil]
      rfl
    rw [hnil]
    decide
  · intro entries
    refine ⟨String.join (entries.map
      (fun x => ExportService.csvRow (ExportService.entryCsvFields x))), ?_⟩
    show ExportService.csvRow ExportService.csvHeaderFields ++ _ = _ ++ _
    congr 1

/-- C9, witness: the header theorem on an empty database and an arbitrary
user. -/
theorem C9_witness :
    ExportService.export_csv (ExportService.userEntriesAsc ⟨[], 0, 0⟩ 1) =
      "\"date\",\"time\",\"transcription\",\"summary\",\"mood_score\",\"tags\"\r\n" :=
  (C9_csv_header ⟨[], 0, 0⟩ 1 (by intro x hx; simp at hx)).1

end VoiceJournal
